import Mathlib

/-!
Verification of the quiz-generation core of the `ncc_ai_assitant` repository.

Python strings are modelled as `List Char` (the inputs of interest are plain
text).  Each definition below is a direct translation of a function from
`src/utils.py`, `src/quiz_interface.py` or `src/interface/quiz_interface.py`;
the doc comment of every definition names its source.
-/

/-- A Python string, modelled as a list of characters. -/
abbrev Str := List Char

/-- The characters Python `str.strip()` removes (ASCII whitespace). -/
def isPySpace (c : Char) : Bool :=
  c == ' ' || c == '\t' || c == '\n' || c == '\r' ||
  c == Char.ofNat 11 || c == Char.ofNat 12

/-- Python `s.strip()`: drop leading and trailing whitespace. -/
def pyStrip (s : Str) : Str :=
  ((s.dropWhile isPySpace).reverse.dropWhile isPySpace).reverse

/-- Python `c.upper()` for a single ASCII character. -/
def pyUpper (c : Char) : Char :=
  if 'a' ≤ c ∧ c ≤ 'z' then Char.ofNat (c.toNat - 32) else c

/-- Python `s.upper()` (character-wise, ASCII). -/
def strUpper (s : Str) : Str := s.map pyUpper

/-- Python `s.split('\n')` (keeps empty pieces, never returns an empty list).
`consHead c` prepends `c` to the first piece. -/
def consHead (c : Char) : List Str → List Str
  | [] => [[c]]
  | t :: ts => (c :: t) :: ts

/-- Python `s.split('\n')`. -/
def splitNl : Str → List Str
  | [] => [[]]
  | c :: cs => if c = '\n' then [] :: splitNl cs else consHead c (splitNl cs)

/-- Python `'\n'.join(ls)`. -/
def joinNl : List Str → Str
  | [] => []
  | [x] => x
  | x :: y :: tl => x ++ '\n' :: joinNl (y :: tl)

/-- `[line.strip() for line in s.split('\n') if line.strip()]`
(as in `parse_single_question`, src/utils.py line 178). -/
def cleanLines (s : Str) : List Str :=
  ((splitNl s).map pyStrip).filter (fun l => l ≠ [])

/-- Python `s.startswith(pre)`. -/
def strStarts : Str → Str → Bool
  | [], _ => true
  | _ :: _, [] => false
  | c :: p, d :: s => c == d && strStarts p s

/-- Python `pat in s` (substring test). -/
def strHas (pat : Str) : Str → Bool
  | [] => strStarts pat []
  | c :: t => strStarts pat (c :: t) || strHas pat t

/-- Python `s.find(':')` followed by `s[idx+1:]`: the text after the first
colon, the whole string when there is no colon (`find` returns `-1`). -/
def afterColon (s : Str) : Str :=
  match s.findIdx? (fun c => c == ':') with
  | some i => s.drop (i + 1)
  | none => s

/-- `c` is one of the letters `A`–`D` (the regex class `[A-D]`). -/
def isAD (c : Char) : Bool :=
  c == 'A' || c == 'B' || c == 'C' || c == 'D'

/-- Matcher for the regex `Q\d*:` (case-sensitive, as compiled by
`re.split(r'Q\d*:', ...)` in src/utils.py line 146): at the head of `s`,
a literal `Q`, then a maximal run of digits, then `:`.  Returns the length
of the match. -/
def matchQnum : Str → Option Nat
  | 'Q' :: rest =>
    let n := (rest.takeWhile Char.isDigit).length
    match rest.drop n with
    | ':' :: _ => some (n + 2)
    | _ => none
  | _ => none

/-- Matcher for the regex `Question \d+:` (case-sensitive,
src/utils.py line 147). -/
def matchQuestionNum (s : Str) : Option Nat :=
  if strStarts ['Q', 'u', 'e', 's', 't', 'i', 'o', 'n', ' '] s then
    let rest := s.drop 9
    let n := (rest.takeWhile Char.isDigit).length
    if n = 0 then none
    else
      match rest.drop n with
      | ':' :: _ => some (9 + n + 1)
      | _ => none
  else none

/-- Matcher for the literal separator `---` (src/utils.py line 148). -/
def matchDashes : Str → Option Nat
  | '-' :: '-' :: '-' :: _ => some 3
  | _ => none

/-- Matcher for the literal `\n\n` (src/utils.py line 149). -/
def matchNl2 : Str → Option Nat
  | '\n' :: '\n' :: _ => some 2
  | _ => none

/-- Matcher for the regex `QUESTION \d+:` with `re.IGNORECASE`
(src/interface/quiz_interface.py line 482). -/
def matchIfaceQ (s : Str) : Option Nat :=
  if strStarts ['Q', 'U', 'E', 'S', 'T', 'I', 'O', 'N', ' '] (strUpper s) then
    let rest := (strUpper s).drop 9
    let n := (rest.takeWhile Char.isDigit).length
    if n = 0 then none
    else
      match rest.drop n with
      | ':' :: _ => some (9 + n + 1)
      | _ => none
  else none

/-- Worker for `re.split`: scan left to right, cut at each leftmost match,
and continue after the matched text.  `acc` holds the current piece,
reversed; `skip` counts characters of a match still to be consumed. -/
def splitGo (m : Str → Option Nat) : Nat → List Char → Str → List Str
  | _, acc, [] => [acc.reverse]
  | k + 1, acc, _ :: cs => splitGo m k acc cs
  | 0, acc, c :: cs =>
    match m (c :: cs) with
    | some n => acc.reverse :: splitGo m (n - 1) [] cs
    | none => splitGo m 0 (c :: acc) cs

/-- Python `re.split(pattern, s)` for a pattern recognised by `m`. -/
def splitBy (m : Str → Option Nat) (s : Str) : List Str :=
  splitGo m 0 [] s

/-- `[b.strip() for b in re.split(pattern, response_text) if b.strip()]`
(src/utils.py line 154). -/
def cleanSplit (m : Str → Option Nat) (s : Str) : List Str :=
  (((splitBy m s).map pyStrip).filter (fun b => b ≠ []))

/-- The segmentation phase of `parse_quiz_response` (src/utils.py lines
142-160): try the four patterns in order, keep the first split that yields
more than one non-empty block, otherwise the whole response is the single
candidate block. -/
def questionBlocks (s : Str) : List Str :=
  if 1 < (cleanSplit matchQnum s).length then cleanSplit matchQnum s
  else if 1 < (cleanSplit matchQuestionNum s).length then cleanSplit matchQuestionNum s
  else if 1 < (cleanSplit matchDashes s).length then cleanSplit matchDashes s
  else if 1 < (cleanSplit matchNl2 s).length then cleanSplit matchNl2 s
  else [s]

/-- The `question_data` record of `parse_single_question` (src/utils.py
lines 180-185).  Option keys are the single-letter strings `A`-`D`,
kept in Python dict insertion order. -/
structure QuestionData where
  question : Str
  options : List (Str × Str)
  answer : Str
  explanation : Str
deriving DecidableEq, Repr

/-- Parser state while scanning the lines of one block: the `question_data`
record plus the `current_option` variable (src/utils.py line 187). -/
structure PState where
  question : Str
  options : List (Str × Str)
  answer : Str
  explanation : Str
  cur : Option Str
deriving DecidableEq, Repr

/-- The empty `question_data` with `current_option = None`. -/
def initPState : PState := ⟨[], [], [], [], none⟩

/-- Python `key in dict` on the options mapping. -/
def hasKey (opts : List (Str × Str)) (k : Str) : Bool :=
  opts.any (fun p => p.1 == k)

/-- Python `dict[k] = v`: update in place when present, append otherwise. -/
def setOpt (opts : List (Str × Str)) (k v : Str) : List (Str × Str) :=
  if hasKey opts k then
    opts.map (fun p => if p.1 == k then (p.1, v) else p)
  else opts ++ [(k, v)]

/-- Python `dict[k] += extra`. -/
def appendOpt (opts : List (Str × Str)) (k extra : Str) : List (Str × Str) :=
  opts.map (fun p => if p.1 == k then (p.1, p.2 ++ extra) else p)

/-- `re.match(r'^[A-D][\)\.]', line_upper)` (src/utils.py line 200). -/
def isOptionLine (lu : Str) : Bool :=
  match lu with
  | c :: d :: _ => isAD c && (d == ')' || d == '.')
  | _ => false

/-- One iteration of the line loop of `parse_single_question`
(src/utils.py lines 190-220), translated branch by branch. -/
def processLine (st : PState) (line : Str) : PState :=
  let lu := strUpper line
  if strStarts ['Q', ':'] lu || strStarts ['Q', 'U', 'E', 'S', 'T', 'I', 'O', 'N'] lu then
    { st with question := pyStrip (afterColon line) }
  else if isOptionLine lu then
    { st with options := setOpt st.options [lu.headI] (pyStrip (line.drop 2)),
              cur := some [lu.headI] }
  else if strHas ['A', 'N', 'S', 'W', 'E', 'R', ':'] lu ||
          strHas ['C', 'O', 'R', 'R', 'E', 'C', 'T', ' ', 'A', 'N', 'S', 'W', 'E', 'R', ':'] lu then
    match lu.find? isAD with
    | some c => { st with answer := [c] }
    | none => st
  else if strStarts ['E', 'X', 'P', 'L', 'A', 'N', 'A', 'T', 'I', 'O', 'N', ':'] lu ||
          strStarts ['E', 'X', 'P', 'L', 'A', 'N', 'A', 'T', 'I', 'O', 'N'] lu ||
          strStarts ['N', 'O', 'T', 'E', ':'] lu then
    { st with explanation := pyStrip (afterColon line) }
  else
    match st.cur with
    | some k => if hasKey st.options k then
        { st with options := appendOpt st.options k (' ' :: pyStrip line) }
      else st
    | none => st

/-- The validation and first-line-fallback tail of `parse_single_question`
(src/utils.py lines 222-241), applied to the cleaned lines of a block. -/
def validateQuestion (ls : List Str) : Option QuestionData :=
  let st := ls.foldl processLine initPState
  if st.question ≠ [] ∧ 2 ≤ st.options.length ∧ hasKey st.options st.answer then
    some ⟨st.question, st.options, st.answer, st.explanation⟩
  else if st.question = [] ∧ ls ≠ [] then
    if ls.headI ≠ [] ∧ 2 ≤ st.options.length then
      some ⟨ls.headI, st.options, st.answer, st.explanation⟩
    else none
  else none

/-- `parse_single_question` (src/utils.py lines 176-241). -/
def parseSingleQuestion (s : Str) : Option QuestionData :=
  validateQuestion (cleanLines s)

/-- `parse_quiz_response` (src/utils.py lines 137-174): segment, then parse
each stripped non-empty block, keeping the valid questions. -/
def parseQuizResponse (s : Str) : List QuestionData :=
  (questionBlocks s).filterMap
    (fun b => if pyStrip b = [] then none else parseSingleQuestion (pyStrip b))

/-- `re.match(r'^[A-D]\)', line_upper)`
(src/interface/quiz_interface.py line 512): only `)` is accepted. -/
def isIfaceOptionLine (lu : Str) : Bool :=
  match lu with
  | c :: d :: _ => isAD c && d == ')'
  | _ => false

/-- One iteration of the line loop of `_parse_single_question_block`
(src/interface/quiz_interface.py lines 504-525).  This variant has no
`current_option` continuation branch; `cur` stays unused. -/
def ifaceProcessLine (st : PState) (line : Str) : PState :=
  let lu := strUpper line
  if strStarts ['Q', ':'] lu then
    { st with question := pyStrip (line.drop 2) }
  else if isIfaceOptionLine lu then
    { st with options := setOpt st.options [pyUpper line.headI] (pyStrip (line.drop 2)) }
  else if strStarts ['A', 'N', 'S', 'W', 'E', 'R', ':'] lu then
    match lu.find? isAD with
    | some c => { st with answer := [c] }
    | none => st
  else if strStarts ['E', 'X', 'P', 'L', 'A', 'N', 'A', 'T', 'I', 'O', 'N', ':'] lu then
    { st with explanation := pyStrip (line.drop 12) }
  else st

/-- `_parse_single_question_block` (src/interface/quiz_interface.py lines
493-544): extraction, then the completeness check `question_text and
len(options) == 4 and correct_answer and correct_answer in options`.
The `topic`/`difficulty`/`certificate_level` metadata fields are
pass-through strings and are not modelled. -/
def ifaceParseBlock (b : Str) : Option QuestionData :=
  let ls := cleanLines b
  let st := ls.foldl ifaceProcessLine initPState
  if st.question ≠ [] ∧ st.options.length = 4 ∧ st.answer ≠ [] ∧ hasKey st.options st.answer then
    some ⟨st.question, st.options, st.answer, st.explanation⟩
  else none

/-- The candidate blocks of `_parse_ai_response`
(src/interface/quiz_interface.py lines 481-484):
`re.split(r'QUESTION \d+:', response, flags=re.IGNORECASE)[1:]`. -/
def ifaceCandidateBlocks (s : Str) : List Str :=
  (splitBy matchIfaceQ s).drop 1

/-- `_parse_ai_response` (src/interface/quiz_interface.py lines 476-491). -/
def ifaceParseResponse (s : Str) : List QuestionData :=
  (ifaceCandidateBlocks s).filterMap (fun b => ifaceParseBlock (pyStrip b))

/-- Python `user_answers.get(i)` on the sparse answers mapping. -/
def lookupAns (ans : List (Nat × Str)) (i : Nat) : Option Str :=
  (ans.find? (fun p => p.1 == i)).map (fun p => p.2)

/-- The scoring loop of `calculate_and_show_results` (src/quiz_interface.py
lines 166-169): `for i, question in enumerate(questions): if
user_answers.get(i) == question['answer']: correct_count += 1`,
with the enumeration index starting at `i`. -/
def correctCountFrom (ans : List (Nat × Str)) : Nat → List QuestionData → Nat
  | _, [] => 0
  | i, q :: qs =>
    (if lookupAns ans i = some q.answer then 1 else 0) + correctCountFrom ans (i + 1) qs

/-- `correct_count` of `calculate_and_show_results`
(src/quiz_interface.py lines 160-169). -/
def correctCount (qs : List QuestionData) (ans : List (Nat × Str)) : Nat :=
  correctCountFrom ans 0 qs

/-- `score_percentage = (correct_count / total_questions) * 100`
(src/quiz_interface.py line 171), with real division modelled in `ℚ`. -/
def scorePercentage (qs : List QuestionData) (ans : List (Nat × Str)) : ℚ :=
  ((correctCount qs ans : ℚ) / (qs.length : ℚ)) * 100

/-- The scoring loop of `_calculate_quiz_results`
(src/interface/quiz_interface.py lines 728-733):
`user_answer = session.user_answers.get(i, "")`;
`is_correct = user_answer == question.correct_answer`. -/
def ifaceCorrectCountFrom (ans : List (Nat × Str)) : Nat → List QuestionData → Nat
  | _, [] => 0
  | i, q :: qs =>
    (if (lookupAns ans i).getD [] = q.answer then 1 else 0) +
      ifaceCorrectCountFrom ans (i + 1) qs

/-- `correct_count` of `_calculate_quiz_results`
(src/interface/quiz_interface.py lines 721-746). -/
def ifaceCorrectCount (qs : List QuestionData) (ans : List (Nat × Str)) : Nat :=
  ifaceCorrectCountFrom ans 0 qs

/-- `can_make_api_call` (src/utils.py lines 65-77).  Time is modelled in
seconds; `last` is `st.session_state.last_api_call`, `now` the value of
`datetime.now()`.  Returns the permission flag and, when blocked, the
remaining minutes reported in the warning message
(`2 - time_since_last.seconds // 60`). -/
def canMakeApiCall (last : Option Nat) (now : Nat) : Bool × Nat :=
  match last with
  | none => (true, 0)
  | some t =>
    if now - t < 120 then (false, 2 - (now - t) / 60) else (true, 0)

/-- The distinct notices `generate_quiz_questions` can emit
(src/utils.py lines 79-135): the model-initialisation error, the
rate-limit warning with its remaining minutes, the
no-valid-questions error, and the success message. -/
inductive GenNotice where
  | modelError : GenNotice
  | rateLimited : Nat → GenNotice
  | noValid : GenNotice
  | success : Nat → GenNotice
deriving DecidableEq, Repr

/-- The observable outcome of one call to `generate_quiz_questions`:
the returned list, the new `last_api_call`, whether
`model.generate_content` was invoked, and the notice shown. -/
structure GenOutcome where
  questions : List QuestionData
  last : Option Nat
  apiCalled : Bool
  notice : GenNotice
deriving DecidableEq, Repr

/-- `generate_quiz_questions` (src/utils.py lines 79-135) on its
non-exceptional paths.  `model` tells whether a model object is present;
`resp` is the text the external call would return. -/
def generateQuizQuestions (model : Bool) (resp : Str) (last : Option Nat)
    (now : Nat) : GenOutcome :=
  if ¬ model then ⟨[], last, false, GenNotice.modelError⟩
  else
    let check := canMakeApiCall last now
    if ¬ check.1 then ⟨[], last, false, GenNotice.rateLimited check.2⟩
    else
      let qs := parseQuizResponse resp
      if qs.length = 0 then ⟨[], some now, true, GenNotice.noValid⟩
      else ⟨qs, some now, true, GenNotice.success qs.length⟩

/-- The quiz-related session-state fields set by `display_quiz_creation`
(src/quiz_interface.py lines 52-60). -/
structure QuizState where
  quiz_questions : List QuestionData
  quiz_topic : Str
  current_question : Nat
  user_answers : List (Nat × Str)
  quiz_submitted : Bool
  quiz_completed : Bool
deriving DecidableEq, Repr

/-- The `if questions:` block of `display_quiz_creation`
(src/quiz_interface.py lines 52-60): session state is overwritten only
when the generated list is non-empty. -/
def applyGeneratedQuestions (st : QuizState) (topic : Str)
    (qs : List QuestionData) : QuizState :=
  if qs ≠ [] then ⟨qs, topic, 0, [], false, false⟩ else st

/-- The two index-moving quiz navigation requests. -/
inductive NavAction where
  | prev : NavAction
  | next : NavAction
deriving DecidableEq, Repr

/-- The index updates of `display_active_quiz` (src/quiz_interface.py
lines 133-140): `prev_clicked and current_idx > 0` decrements,
`next_clicked and current_idx < len(questions) - 1` increments;
otherwise the index is unchanged.  `n` is `len(questions)`. -/
def mainNavStep (n idx : Nat) : NavAction → Nat
  | NavAction.prev => if 0 < idx then idx - 1 else idx
  | NavAction.next => if idx < n - 1 then idx + 1 else idx

/-- The index updates of `_handle_quiz_navigation`
(src/interface/quiz_interface.py lines 686-692): the guards are
`prev_clicked and current_idx > 0` and
`next_clicked and current_idx < len(session.questions) - 1`. -/
def ifaceNavStep (n idx : Nat) : NavAction → Nat
  | NavAction.prev => if 0 < idx then idx - 1 else idx
  | NavAction.next => if idx < n - 1 then idx + 1 else idx

/-- The serialised text of one option, `K) text`, one line each, as in the
format template of the generation prompt (src/utils.py lines 95-101). -/
def optionLinesText : List (Str × Str) → Str
  | [] => []
  | (k, v) :: tl => k ++ ')' :: ' ' :: v ++ '\n' :: optionLinesText tl

/-- Serialisation of a parsed question back to text, in the exact line
format the repository's own generation prompt demands
(src/utils.py lines 94-101): `Q: ...`, one `K) ...` line per option,
`ANSWER: X`, `EXPLANATION: ...`. -/
def serializeQuestion (q : QuestionData) : Str :=
  'Q' :: ':' :: ' ' :: q.question ++ '\n' :: optionLinesText q.options ++
    ('A' :: 'N' :: 'S' :: 'W' :: 'E' :: 'R' :: ':' :: ' ' :: q.answer) ++
    '\n' :: 'E' :: 'X' :: 'P' :: 'L' :: 'A' :: 'N' :: 'A' :: 'T' :: 'I' :: 'O' :: 'N' :: ':' :: ' ' :: q.explanation

/-- An `ANSWER: X` line, the documented answer-line shape. -/
def answerLine (x : Char) : Str :=
  'A' :: 'N' :: 'S' :: 'W' :: 'E' :: 'R' :: ':' :: ' ' :: [x]

/-- A `CORRECT ANSWER: X` line, the other marker recognised in
src/utils.py line 207. -/
def correctAnswerLine (x : Char) : Str :=
  'C' :: 'O' :: 'R' :: 'R' :: 'E' :: 'C' :: 'T' :: ' ' :: 'A' :: 'N' :: 'S' :: 'W' :: 'E' :: 'R' :: ':' :: ' ' :: [x]

/-- The marker line `QUESTION d:` used by the interface prompt format
(src/interface/quiz_interface.py lines 451-464). -/
def qMarker (d : Char) : Str :=
  'Q' :: 'U' :: 'E' :: 'S' :: 'T' :: 'I' :: 'O' :: 'N' :: ' ' :: d :: ':' :: []

/-- A block with two well-formed options and no question or answer line. -/
def exOnlyOptions : Str := "A) foo\nB) bar".toList

/-- A second such block, used to inspect the first-line fallback. -/
def exFallback : Str := "A) one\nB) two".toList

/-- A fully well-formed single-question response. -/
def exGood : Str := "Q: What?\nA) one\nB) two\nANSWER: A\nEXPLANATION: e".toList

/-- A response whose question markers are lower-case. -/
def exLowerMarkers : Str := "q1: alpha\nq2: beta".toList

/-- A response whose markers sit in the middle of lines. -/
def exMidlineMarkers : Str := "xxQ1: a yyQ2: b".toList

/-- A response made of three blocks separated by `QUESTION n:` markers,
with no other separators. -/
def exThreeBlocks : Str :=
  "QUESTION 1:\nalpha\nQUESTION 2:\nbravo\nQUESTION 3:\ncharlie".toList

/-- A block that parses to a valid question whose answer is `B` (the
letter `B` of `BEST` is the first `[A-D]` character of its answer line). -/
def exAnswerB : Str := "Q: Which?\nA) one\nB) two\nBEST ANSWER: B".toList

/-- A response with no recognisable structure at all. -/
def exGarbage : Str := "hello there".toList

/-- Five questions whose correct answers are `A, B, C, D, A`
(the scoring example of the specification). -/
def exFiveQuestions : List QuestionData :=
  [⟨"q1".toList, [("A".toList, "o1".toList), ("B".toList, "o2".toList)], "A".toList, []⟩,
   ⟨"q2".toList, [("A".toList, "o1".toList), ("B".toList, "o2".toList)], "B".toList, []⟩,
   ⟨"q3".toList, [("C".toList, "o1".toList), ("D".toList, "o2".toList)], "C".toList, []⟩,
   ⟨"q4".toList, [("C".toList, "o1".toList), ("D".toList, "o2".toList)], "D".toList, []⟩,
   ⟨"q5".toList, [("A".toList, "o1".toList), ("B".toList, "o2".toList)], "A".toList, []⟩]

/-- User answers `{0: A, 1: B, 2: X, 4: A}`; index 3 is unanswered. -/
def exFiveAnswers : List (Nat × Str) :=
  [(0, "A".toList), (1, "B".toList), (2, "X".toList), (4, "A".toList)]

/-! ### Properties of the string primitives -/

theorem mem_of_mem_dropWhile {α} {p : α → Bool} {c : α} :
    ∀ {l : List α}, c ∈ l.dropWhile p → c ∈ l := by
  intro l
  induction l with
  | nil => simp [List.dropWhile]
  | cons a t ih =>
    intro h
    rw [List.dropWhile_cons] at h
    by_cases hp : p a
    · rw [if_pos hp] at h
      exact List.mem_cons_of_mem a (ih h)
    · rw [if_neg hp] at h
      exact h

theorem dropWhile_headI_false {p : Char → Bool} :
    ∀ {l : Str}, l.dropWhile p ≠ [] → p ((l.dropWhile p).headI) = false := by
  intro l
  induction l with
  | nil => simp [List.dropWhile]
  | cons a t ih =>
    intro h
    rw [List.dropWhile_cons] at h ⊢
    by_cases hp : p a
    · rw [if_pos hp] at h ⊢
      exact ih h
    · rw [if_neg hp]
      simpa using hp

theorem dropWhile_eq_self_of_headI {p : Char → Bool} {l : Str}
    (h : l = [] ∨ p l.headI = false) : l.dropWhile p = l := by
  cases l with
  | nil => simp [List.dropWhile]
  | cons a t =>
    rcases h with h | h
    · exact absurd h (by simp)
    · simp only [List.headI] at h
      rw [List.dropWhile_cons, if_neg (by simp [h])]

theorem dropWhile_suffix_decomp {α} (p : α → Bool) :
    ∀ l : List α, ∃ t, l = t ++ l.dropWhile p := by
  intro l
  induction l with
  | nil => exact ⟨[], rfl⟩
  | cons a t ih =>
    by_cases hp : p a
    · obtain ⟨u, hu⟩ := ih
      exact ⟨a :: u, by rw [List.dropWhile_cons, if_pos hp, List.cons_append, ← hu]⟩
    · exact ⟨[], by rw [List.dropWhile_cons, if_neg hp, List.nil_append]⟩

theorem mem_pyStrip {c : Char} {l : Str} (h : c ∈ pyStrip l) : c ∈ l := by
  unfold pyStrip at h
  rw [List.mem_reverse] at h
  have h1 := mem_of_mem_dropWhile h
  rw [List.mem_reverse] at h1
  exact mem_of_mem_dropWhile h1

theorem headI_append_left {l : Str} (t : Str) (h : l ≠ []) :
    (l ++ t).headI = l.headI := by
  cases l with
  | nil => exact absurd rfl h
  | cons a u => rfl

theorem dropWhile_fixed {p : Char → Bool} (l : Str) :
    (l.dropWhile p).dropWhile p = l.dropWhile p := by
  apply dropWhile_eq_self_of_headI
  by_cases h : l.dropWhile p = []
  · exact Or.inl h
  · exact Or.inr (dropWhile_headI_false h)

theorem reverse_dropWhile_reverse_headI {p : Char → Bool} {m : Str}
    (h : m.reverse.dropWhile p ≠ []) :
    (m.reverse.dropWhile p).reverse.headI = m.headI := by
  obtain ⟨t, ht⟩ := dropWhile_suffix_decomp p m.reverse
  have hm : m = (m.reverse.dropWhile p).reverse ++ t.reverse := by
    have h2 := congrArg List.reverse ht
    simpa using h2
  conv_rhs => rw [hm]
  rw [headI_append_left _ (by simpa using h)]

theorem pyStrip_idem (l : Str) : pyStrip (pyStrip l) = pyStrip l := by
  unfold pyStrip
  by_cases hB : (l.dropWhile isPySpace).reverse.dropWhile isPySpace = []
  · rw [hB]
    simp [List.dropWhile]
  · have hA : l.dropWhile isPySpace ≠ [] := by
      intro h0
      rw [h0] at hB
      simp [List.dropWhile] at hB
    have h1 : ((l.dropWhile isPySpace).reverse.dropWhile isPySpace).reverse.dropWhile isPySpace
        = ((l.dropWhile isPySpace).reverse.dropWhile isPySpace).reverse := by
      apply dropWhile_eq_self_of_headI
      right
      rw [reverse_dropWhile_reverse_headI hB]
      exact dropWhile_headI_false hA
    rw [h1, List.reverse_reverse, dropWhile_fixed]

theorem splitNl_ne_nil : ∀ s : Str, splitNl s ≠ [] := by
  intro s
  induction s with
  | nil => simp [splitNl]
  | cons c cs ih =>
    rw [splitNl]
    by_cases hc : c = '\n'
    · rw [if_pos hc]; simp
    · rw [if_neg hc]
      cases h : splitNl cs with
      | nil => exact absurd h ih
      | cons t ts => simp [consHead]

theorem mem_splitNl_no_nl : ∀ {s x : Str}, x ∈ splitNl s → '\n' ∉ x := by
  intro s
  induction s with
  | nil =>
    intro x hx
    simp [splitNl] at hx
    simp [hx]
  | cons c cs ih =>
    intro x hx
    rw [splitNl] at hx
    by_cases hc : c = '\n'
    · rw [if_pos hc] at hx
      rcases List.mem_cons.mp hx with h | h
      · simp [h]
      · exact ih h
    · rw [if_neg hc] at hx
      cases h : splitNl cs with
      | nil => exact absurd h (splitNl_ne_nil cs)
      | cons t ts =>
        rw [h, consHead] at hx
        rcases List.mem_cons.mp hx with h1 | h1
        · subst h1
          intro hmem
          rcases List.mem_cons.mp hmem with h2 | h2
          · exact hc h2.symm
          · exact ih (h ▸ List.mem_cons_self t ts) h2
        · exact ih (h ▸ List.mem_cons_of_mem t h1)

theorem splitNl_of_no_nl : ∀ {x : Str}, '\n' ∉ x → splitNl x = [x] := by
  intro x
  induction x with
  | nil => intro _; rfl
  | cons c t ih =>
    intro h
    have hc : c ≠ '\n' := fun hc => h (hc ▸ List.mem_cons_self c t)
    have ht : '\n' ∉ t := fun hm => h (List.mem_cons_of_mem c hm)
    rw [splitNl, if_neg hc, ih ht, consHead]

theorem splitNl_append_nl : ∀ {x : Str} (rest : Str), '\n' ∉ x →
    splitNl (x ++ '\n' :: rest) = x :: splitNl rest := by
  intro x
  induction x with
  | nil => intro rest _; simp [splitNl]
  | cons c t ih =>
    intro rest h
    have hc : c ≠ '\n' := fun hc => h (hc ▸ List.mem_cons_self c t)
    have ht : '\n' ∉ t := fun hm => h (List.mem_cons_of_mem c hm)
    rw [List.cons_append, splitNl, if_neg hc, ih rest ht, consHead]

theorem splitNl_joinNl : ∀ {ls : List Str}, (∀ x ∈ ls, '\n' ∉ x) → ls ≠ [] →
    splitNl (joinNl ls) = ls := by
  intro ls
  induction ls with
  | nil => intro _ h; exact absurd rfl h
  | cons x tl ih =>
    intro hmem _
    cases tl with
    | nil =>
      rw [joinNl, splitNl_of_no_nl (hmem x (List.mem_cons_self x []))]
    | cons y tl' =>
      rw [joinNl, splitNl_append_nl _ (hmem x (List.mem_cons_self x _)),
        ih (fun z hz => hmem z (List.mem_cons_of_mem x hz)) (by simp)]

theorem mem_cleanLines {l : Str} {s : Str} (h : l ∈ cleanLines s) :
    l ≠ [] ∧ pyStrip l = l ∧ '\n' ∉ l := by
  unfold cleanLines at h
  rw [List.mem_filter] at h
  obtain ⟨hmap, hne⟩ := h
  rw [List.mem_map] at hmap
  obtain ⟨x, hx, rfl⟩ := hmap
  refine ⟨by simpa using hne, pyStrip_idem x, ?_⟩
  intro hmem
  exact mem_splitNl_no_nl hx (mem_pyStrip hmem)

theorem cleanLines_joinNl (s : Str) :
    cleanLines (joinNl (cleanLines s)) = cleanLines s := by
  by_cases hnil : cleanLines s = []
  · rw [hnil]
    rfl
  · conv_lhs => rw [cleanLines]
    rw [splitNl_joinNl (fun x hx => (mem_cleanLines hx).2.2) hnil]
    have hmap : (cleanLines s).map pyStrip = cleanLines s := by
      conv_rhs => rw [← List.map_id (cleanLines s)]
      exact List.map_congr_left (fun a ha => (mem_cleanLines ha).2.1)
    rw [hmap]
    rw [List.filter_eq_self.mpr (fun a ha => by simpa using (mem_cleanLines ha).1)]

theorem parseSingleQuestion_rejoin (s : Str) :
    parseSingleQuestion (joinNl (cleanLines s)) = parseSingleQuestion s := by
  unfold parseSingleQuestion
  rw [cleanLines_joinNl]

/-! ### The validator's guarantees -/

theorem validateQuestion_some {ls : List Str} {q : QuestionData}
    (h : validateQuestion ls = some q) :
    q.question ≠ [] ∧ 2 ≤ q.options.length := by
  unfold validateQuestion at h
  dsimp only at h
  split at h
  · rename_i hcond
    cases h
    exact ⟨hcond.1, hcond.2.1⟩
  · split at h
    · split at h
      · rename_i hcond
        cases h
        exact ⟨hcond.1, hcond.2⟩
      · exact absurd h (by simp)
    · exact absurd h (by simp)

/-- C1 (amended): every question surfaced by `parse_quiz_response` has a
non-empty question text and at least 2 options; the `answer ∈ options`
part of the claimed invariant is enforced only by the primary validation,
not by the first-line fallback, so it can be violated (see the
counterexample). -/
theorem parse_quiz_response_surfaced_invariant {s : Str} {q : QuestionData}
    (h : q ∈ parseQuizResponse s) : q.question ≠ [] ∧ 2 ≤ q.options.length := by
  unfold parseQuizResponse at h
  rw [List.mem_filterMap] at h
  obtain ⟨b, _, hb⟩ := h
  by_cases hs : pyStrip b = []
  · rw [if_pos hs] at hb
    exact absurd hb (by simp)
  · rw [if_neg hs] at hb
    unfold parseSingleQuestion at hb
    exact validateQuestion_some hb

/-- C1 counterexample: the block `A) foo\nB) bar` has no answer line, yet
`parse_quiz_response` surfaces it through the first-line fallback with an
empty `answer` that is not a key of `options`. -/
theorem parse_quiz_response_invariant_counterexample :
    parseQuizResponse exOnlyOptions =
      [⟨"A) foo".toList, [("A".toList, "foo".toList), ("B".toList, "bar".toList)], [], []⟩] ∧
    hasKey [("A".toList, "foo".toList), ("B".toList, "bar".toList)] ([] : Str) = false := by
  exact ⟨by decide, by decide⟩

theorem parse_quiz_response_surfaced_invariant_witness :
    (⟨"What?".toList, [("A".toList, "one".toList), ("B".toList, "two".toList)],
        "A".toList, "e".toList⟩ : QuestionData).question ≠ [] ∧
      2 ≤ (⟨"What?".toList, [("A".toList, "one".toList), ("B".toList, "two".toList)],
        "A".toList, "e".toList⟩ : QuestionData).options.length :=
  parse_quiz_response_surfaced_invariant (s := exGood) (by decide)

/-- C3 (amended): when per-line extraction leaves `question` empty and the
block has at least one non-empty line, the first line becomes the question
text, but only the `len(options) >= 2` half of the condition is re-checked;
the `answer in options` condition is not re-examined, so the block is kept
whenever it has at least two options, answer notwithstanding. -/
theorem fallback_rechecks_only_options (s : Str) (st : PState)
    (hst : st = (cleanLines s).foldl processLine initPState)
    (hq : st.question = []) (hne : cleanLines s ≠ []) :
    parseSingleQuestion s =
      if 2 ≤ st.options.length then
        some ⟨(cleanLines s).headI, st.options, st.answer, st.explanation⟩
      else none := by
  subst hst
  unfold parseSingleQuestion validateQuestion
  dsimp only
  rw [if_neg (fun hcond => hcond.1 hq)]
  rw [if_pos ⟨hq, hne⟩]
  have hI : (cleanLines s).headI ≠ [] := by
    cases hcl : cleanLines s with
    | nil => exact absurd hcl hne
    | cons a t =>
      simp only [List.headI]
      exact (mem_cleanLines (hcl ▸ List.mem_cons_self a t)).1
  by_cases hlen : 2 ≤ ((cleanLines s).foldl processLine initPState).options.length
  · rw [if_pos ⟨hI, hlen⟩, if_pos hlen]
  · rw [if_neg (fun hcond => hlen hcond.2), if_neg hlen]

/-- C3 counterexample: for `A) one\nB) two` the per-line pass leaves
`question` empty and its (empty) answer is not a key of its options, so the
claimed full re-check would discard the block; the code keeps it. -/
theorem fallback_skips_answer_recheck_counterexample :
    ((cleanLines exFallback).foldl processLine initPState).question = [] ∧
    hasKey ((cleanLines exFallback).foldl processLine initPState).options
      ((cleanLines exFallback).foldl processLine initPState).answer = false ∧
    parseSingleQuestion exFallback =
      some ⟨"A) one".toList, [("A".toList, "one".toList), ("B".toList, "two".toList)], [], []⟩ := by
  exact ⟨by decide, by decide, by decide⟩

theorem fallback_rechecks_only_options_witness :
    parseSingleQuestion exFallback =
      if 2 ≤ ((cleanLines exFallback).foldl processLine initPState).options.length then
        some ⟨(cleanLines exFallback).headI,
          ((cleanLines exFallback).foldl processLine initPState).options,
          ((cleanLines exFallback).foldl processLine initPState).answer,
          ((cleanLines exFallback).foldl processLine initPState).explanation⟩
      else none :=
  fallback_rechecks_only_options exFallback _ rfl (by decide) (by decide)

/-- C10 (amended): re-parsing the re-joined text of an already-valid block
(its stripped non-empty lines joined with newlines) yields the identical
question.  Idempotence under *serialisation* in the repository's own
documented format fails, because a serialised `ANSWER: X` line always
re-parses to answer `A` (see the counterexample). -/
theorem reparse_rejoined_equivalent {s : Str} {q : QuestionData}
    (h : parseSingleQuestion s = some q) :
    parseSingleQuestion (joinNl (cleanLines s)) = some q := by
  rw [parseSingleQuestion_rejoin]
  exact h

/-- C10 counterexample: the block `Q: Which?\nA) one\nB) two\nBEST ANSWER: B`
parses to a valid question whose answer is `B`; serialising that question in
the prompt's documented format and re-parsing yields answer `A`, not an
equivalent question. -/
theorem reparse_serialized_counterexample :
    parseSingleQuestion exAnswerB =
      some ⟨"Which?".toList, [("A".toList, "one".toList), ("B".toList, "two".toList)],
        "B".toList, []⟩ ∧
    parseSingleQuestion (serializeQuestion
        ⟨"Which?".toList, [("A".toList, "one".toList), ("B".toList, "two".toList)],
          "B".toList, []⟩) =
      some ⟨"Which?".toList, [("A".toList, "one".toList), ("B".toList, "two".toList)],
        "A".toList, []⟩ := by
  exact ⟨by decide, by decide⟩

theorem reparse_rejoined_equivalent_witness :
    parseSingleQuestion (joinNl (cleanLines exGood)) =
      some ⟨"What?".toList, [("A".toList, "one".toList), ("B".toList, "two".toList)],
        "A".toList, "e".toList⟩ :=
  reparse_rejoined_equivalent (s := exGood) (by decide)

/-- C2 (amended): processing an `ANSWER: X` line records answer `A` in both
parser variants, whatever `X` is, because the recorded letter is the first
`[A-D]` character of the upper-cased line and the `A` of `ANSWER` precedes
the colon; a `CORRECT ANSWER: X` line records `C` in the utils parser,
while the interface parser ignores such lines entirely (its answer branch
requires the line to start with `ANSWER:`).  In both variants the letter
written after the colon never determines the recorded answer. -/
theorem answer_letter_from_marker :
    (∀ (st : PState) (x : Char), x ∈ ['A', 'B', 'C', 'D'] →
      (processLine st (answerLine x)).answer = ['A']) ∧
    (∀ (st : PState) (x : Char), x ∈ ['A', 'B', 'C', 'D'] →
      (processLine st (correctAnswerLine x)).answer = ['C']) ∧
    (∀ (st : PState) (x : Char), x ∈ ['A', 'B', 'C', 'D'] →
      (ifaceProcessLine st (answerLine x)).answer = ['A']) ∧
    (∀ (st : PState) (x : Char), x ∈ ['A', 'B', 'C', 'D'] →
      ifaceProcessLine st (correctAnswerLine x) = st) := by
  refine ⟨?_, ?_, ?_, ?_⟩ <;> intro st x _ <;> rfl

/-- C2 counterexample: in the interface parser a `CORRECT ANSWER: B` line
records nothing (the state is unchanged and the block is rejected), so the
half of the claim asserting that every such line records `C` in both parser
variants fails. -/
theorem correct_answer_iface_ignored_counterexample :
    ifaceProcessLine initPState (correctAnswerLine 'B') = initPState ∧
    ifaceParseBlock "Q: q\nA) a\nB) b\nC) c\nD) d\nCORRECT ANSWER: B".toList = none := by
  exact ⟨by decide, by decide⟩

theorem answer_letter_from_marker_witness :
    (processLine initPState (answerLine 'B')).answer = ['A'] :=
  answer_letter_from_marker.1 initPState 'B' (by decide)

/-- C4 (amended): `parse_quiz_response` applies the four split patterns in
the claimed order and keeps the first that yields more than one non-empty
block, falling back to the whole response as a single candidate block —
but the patterns are case-sensitive and match anywhere in the text, not
only at line starts (see the counterexample). -/
theorem segmentation_cascade :
    (∀ s : Str, 1 < (cleanSplit matchQnum s).length →
      questionBlocks s = cleanSplit matchQnum s) ∧
    (∀ s : Str, (cleanSplit matchQnum s).length ≤ 1 →
      1 < (cleanSplit matchQuestionNum s).length →
      questionBlocks s = cleanSplit matchQuestionNum s) ∧
    (∀ s : Str, (cleanSplit matchQnum s).length ≤ 1 →
      (cleanSplit matchQuestionNum s).length ≤ 1 →
      1 < (cleanSplit matchDashes s).length →
      questionBlocks s = cleanSplit matchDashes s) ∧
    (∀ s : Str, (cleanSplit matchQnum s).length ≤ 1 →
      (cleanSplit matchQuestionNum s).length ≤ 1 →
      (cleanSplit matchDashes s).length ≤ 1 →
      1 < (cleanSplit matchNl2 s).length →
      questionBlocks s = cleanSplit matchNl2 s) ∧
    (∀ s : Str, (cleanSplit matchQnum s).length ≤ 1 →
      (cleanSplit matchQuestionNum s).length ≤ 1 →
      (cleanSplit matchDashes s).length ≤ 1 →
      (cleanSplit matchNl2 s).length ≤ 1 →
      questionBlocks s = [s]) := by
  refine ⟨?_, ?_, ?_, ?_, ?_⟩
  · intro s h1
    unfold questionBlocks
    rw [if_pos h1]
  · intro s h1 h2
    unfold questionBlocks
    rw [if_neg (Nat.not_lt.mpr h1), if_pos h2]
  · intro s h1 h2 h3
    unfold questionBlocks
    rw [if_neg (Nat.not_lt.mpr h1), if_neg (Nat.not_lt.mpr h2), if_pos h3]
  · intro s h1 h2 h3 h4
    unfold questionBlocks
    rw [if_neg (Nat.not_lt.mpr h1), if_neg (Nat.not_lt.mpr h2),
      if_neg (Nat.not_lt.mpr h3), if_pos h4]
  · intro s h1 h2 h3 h4
    unfold questionBlocks
    rw [if_neg (Nat.not_lt.mpr h1), if_neg (Nat.not_lt.mpr h2),
      if_neg (Nat.not_lt.mpr h3), if_neg (Nat.not_lt.mpr h4)]

/-- C4 counterexample: the patterns are not case-insensitive and are not
anchored to lines.  Lower-case markers (`q1:`/`q2:`) produce a single
block where the claim promises two, and markers in the middle of a line do
split, producing three blocks where the claim promises one. -/
theorem segmentation_markers_literal_counterexample :
    questionBlocks exLowerMarkers = [exLowerMarkers] ∧
    questionBlocks exMidlineMarkers = ["xx".toList, "a yy".toList, "b".toList] := by
  exact ⟨by decide, by decide⟩

theorem segmentation_cascade_witness :
    questionBlocks exGarbage = [exGarbage] :=
  segmentation_cascade.2.2.2.2 exGarbage (by decide) (by decide) (by decide) (by decide)

/-! ### Segmentation of marker-separated responses (interface variant) -/

theorem matchIfaceQ_none {c : Char} {rest : Str} (h : pyUpper c ≠ 'Q') :
    matchIfaceQ (c :: rest) = none := by
  have hq : ('Q' == pyUpper c) = false := beq_eq_false_iff_ne.mpr (Ne.symm h)
  unfold matchIfaceQ
  simp only [strUpper, List.map_cons, strStarts, hq, Bool.false_and, Bool.false_eq_true,
    if_false]

theorem splitGo_skip_drop (m : Str → Option Nat) :
    ∀ (k : Nat) (acc : Str) (cs : Str), k ≤ cs.length →
      splitGo m k acc cs = splitGo m 0 acc (cs.drop k) := by
  intro k
  induction k with
  | zero => intro acc cs _; rfl
  | succ k ih =>
    intro acc cs h
    cases cs with
    | nil => simp at h
    | cons d cs' =>
      have h1 : splitGo m (k + 1) acc (d :: cs') = splitGo m k acc cs' := rfl
      rw [h1, ih acc cs' (by simpa using h)]
      rfl

theorem splitGo_through (a : Str) :
    ∀ (x acc : Str), (∀ ch ∈ a, pyUpper ch ≠ 'Q') →
      splitGo matchIfaceQ 0 acc (a ++ x) = splitGo matchIfaceQ 0 (a.reverse ++ acc) x := by
  induction a with
  | nil => intro x acc _; simp
  | cons c a' ih =>
    intro x acc h
    rw [List.cons_append]
    have h1 : splitGo matchIfaceQ 0 acc (c :: (a' ++ x)) =
        splitGo matchIfaceQ 0 (c :: acc) (a' ++ x) := by
      simp only [splitGo, matchIfaceQ_none (h c (List.mem_cons_self c a'))]
    rw [h1, ih x (c :: acc) (fun ch hch => h ch (List.mem_cons_of_mem c hch))]
    simp [List.append_assoc]

theorem matchIfaceQ_qMarker {d : Char} (hd : d ∈ ['1', '2', '3']) (rest : Str) :
    matchIfaceQ (qMarker d ++ rest) = some 11 := by
  simp only [List.mem_cons, List.not_mem_nil, or_false] at hd
  rcases hd with rfl | rfl | rfl <;> rfl

theorem splitGo_qMarker {d : Char} (hd : d ∈ ['1', '2', '3']) (acc rest : Str) :
    splitGo matchIfaceQ 0 acc (qMarker d ++ rest) =
      acc.reverse :: splitGo matchIfaceQ 0 [] rest := by
  have hm : matchIfaceQ ('Q' :: (('U' :: 'E' :: 'S' :: 'T' :: 'I' :: 'O' :: 'N' :: ' ' :: d :: ':' :: []) ++ rest)) = some 11 :=
    matchIfaceQ_qMarker hd rest
  show splitGo matchIfaceQ 0 acc
      ('Q' :: (('U' :: 'E' :: 'S' :: 'T' :: 'I' :: 'O' :: 'N' :: ' ' :: d :: ':' :: []) ++ rest)) = _
  simp only [splitGo, hm]
  rfl

theorem splitGo_noQ (a acc : Str) (h : ∀ ch ∈ a, pyUpper ch ≠ 'Q') :
    splitGo matchIfaceQ 0 acc a = [acc.reverse ++ a] := by
  have h1 := splitGo_through a [] acc h
  rw [List.append_nil] at h1
  rw [h1]
  show [(a.reverse ++ acc).reverse] = _
  simp

/-- C5 (amended): for the interface parser `_parse_ai_response`, a response
built from three `QUESTION n:` markers each followed by a body (bodies
containing no `Q`/`q` at all, so they cannot contain further markers)
yields exactly the three bodies as candidate blocks.  The utils parser
`parse_quiz_response` does *not* satisfy the claim: its `Question \d+:`
pattern is case-sensitive, so upper-case markers are not recognised (see
the counterexample). -/
theorem iface_three_marker_blocks (a b c : Str)
    (ha : ∀ ch ∈ a, pyUpper ch ≠ 'Q') (hb : ∀ ch ∈ b, pyUpper ch ≠ 'Q')
    (hc : ∀ ch ∈ c, pyUpper ch ≠ 'Q') :
    ifaceCandidateBlocks
      (qMarker '1' ++ a ++ qMarker '2' ++ b ++ qMarker '3' ++ c) = [a, b, c] := by
  unfold ifaceCandidateBlocks splitBy
  rw [List.append_assoc, List.append_assoc, List.append_assoc, List.append_assoc]
  rw [splitGo_qMarker (by decide)]
  rw [splitGo_through a _ _ ha, splitGo_qMarker (by decide)]
  rw [splitGo_through b _ _ hb, splitGo_qMarker (by decide)]
  rw [splitGo_noQ c [] hc]
  simp

/-- C5 counterexample: for the utils parser the same three-marker response
is one single candidate block, not three — `QUESTION 1:` matches neither
the (case-sensitive) `Q\d*:` nor `Question \d+:` pattern, and the response
has no `---` or blank-line separators. -/
theorem utils_marker_response_single_block_counterexample :
    questionBlocks exThreeBlocks = [exThreeBlocks] := by decide

theorem iface_three_marker_blocks_witness :
    ifaceCandidateBlocks
      (qMarker '1' ++ "\nalpha\n".toList ++ qMarker '2' ++ "\nbravo\n".toList ++
        qMarker '3' ++ "\ncharlie".toList) =
      ["\nalpha\n".toList, "\nbravo\n".toList, "\ncharlie".toList] :=
  iface_three_marker_blocks _ _ _ (by decide) (by decide) (by decide)

/-! ### Scoring -/

theorem correctCountFrom_card (ans : List (Nat × Str)) :
    ∀ (qs : List QuestionData) (k : Nat),
      correctCountFrom ans k qs =
        (Finset.univ.filter (fun i : Fin qs.length =>
          lookupAns ans (k + i.1) = some (qs.get i).answer)).card := by
  intro qs
  induction qs with
  | nil => intro k; simp [correctCountFrom]
  | cons q qs ih =>
    intro k
    rw [correctCountFrom, ih (k + 1), Finset.card_filter, Finset.card_filter]
    simp only [List.length_cons]
    rw [Fin.sum_univ_succ]
    congr 1
    apply Finset.sum_congr rfl
    intro x _
    have hget : (q :: qs).get x.succ = qs.get x := rfl
    rw [hget]
    simp only [Fin.val_succ,
      show k + ((x : Nat) + 1) = k + 1 + (x : Nat) from by omega]

theorem ifaceCorrectCountFrom_eq (ans : List (Nat × Str)) :
    ∀ (qs : List QuestionData) (k : Nat), (∀ q ∈ qs, q.answer ≠ []) →
      ifaceCorrectCountFrom ans k qs = correctCountFrom ans k qs := by
  intro qs
  induction qs with
  | nil => intro k _; rfl
  | cons q qs ih =>
    intro k h
    rw [ifaceCorrectCountFrom, correctCountFrom,
      ih (k + 1) (fun x hx => h x (List.mem_cons_of_mem q hx))]
    congr 1
    have hq := h q (List.mem_cons_self q qs)
    cases hl : lookupAns ans k with
    | none =>
      rw [if_neg (fun hcontra => hq (by simpa using hcontra.symm))]
      rw [if_neg (by simp)]
    | some v =>
      simp

/-- C6: on completion, `correct_count` is exactly the number of indices
whose recorded answer equals the question's answer (missing indices count
as incorrect), `score_percentage` is `100 * correct_count / len(questions)`
with all questions in the denominator, and the interface variant agrees
whenever every question has a non-empty answer; on the specification's
5-question example the score is 3 correct, 60.0 percent. -/
theorem quiz_scoring_correct :
    (∀ (qs : List QuestionData) (ans : List (Nat × Str)),
      correctCount qs ans =
        (Finset.univ.filter (fun i : Fin qs.length =>
          lookupAns ans i.1 = some (qs.get i).answer)).card) ∧
    (∀ (qs : List QuestionData) (ans : List (Nat × Str)), 0 < qs.length →
      scorePercentage qs ans = 100 * (correctCount qs ans : ℚ) / (qs.length : ℚ)) ∧
    (∀ (qs : List QuestionData) (ans : List (Nat × Str)),
      (∀ q ∈ qs, q.answer ≠ []) → ifaceCorrectCount qs ans = correctCount qs ans) ∧
    (correctCount exFiveQuestions exFiveAnswers = 3 ∧
      scorePercentage exFiveQuestions exFiveAnswers = 60) := by
  refine ⟨?_, ?_, ?_, ?_, ?_⟩
  · intro qs ans
    have h := correctCountFrom_card ans qs 0
    simpa using h
  · intro qs ans _
    unfold scorePercentage
    ring
  · intro qs ans h
    exact ifaceCorrectCountFrom_eq ans qs 0 h
  · decide
  · have h3 : correctCount exFiveQuestions exFiveAnswers = 3 := by decide
    unfold scorePercentage
    rw [h3, show exFiveQuestions.length = 5 from rfl]
    norm_num

theorem quiz_scoring_correct_witness :
    scorePercentage exFiveQuestions exFiveAnswers =
      100 * (correctCount exFiveQuestions exFiveAnswers : ℚ) /
        (exFiveQuestions.length : ℚ) :=
  quiz_scoring_correct.2.1 exFiveQuestions exFiveAnswers (by decide)

/-! ### Rate limiting, hard failure on zero questions, navigation -/

/-- C7: when the elapsed time since `last_api_call` is below the 120-second
cooldown, `generate_quiz_questions` returns an empty list with the
remaining-wait warning, does not invoke the model, and leaves
`last_api_call` unchanged. -/
theorem rate_limited_request_rejected (resp : Str) (t now : Nat)
    (h : now - t < 120) :
    generateQuizQuestions true resp (some t) now =
      ⟨[], some t, false, GenNotice.rateLimited (2 - (now - t) / 60)⟩ := by
  simp [generateQuizQuestions, canMakeApiCall, h]

theorem rate_limited_request_rejected_witness :
    generateQuizQuestions true exGarbage (some 0) 60 =
      ⟨[], some 0, false, GenNotice.rateLimited 1⟩ :=
  rate_limited_request_rejected exGarbage 0 60 (by decide)

/-- C8: a generation whose parsed response contains zero valid questions
returns an empty list with the failure notice (after the API call, so
`last_api_call` is updated), and `display_quiz_creation` populates the quiz
session state only when the generated list is non-empty. -/
theorem zero_valid_questions_hard_failure :
    (∀ (resp : Str) (last : Option Nat) (now : Nat),
      (canMakeApiCall last now).1 = true → parseQuizResponse resp = [] →
      generateQuizQuestions true resp last now =
        ⟨[], some now, true, GenNotice.noValid⟩) ∧
    (∀ (st : QuizState) (topic : Str), applyGeneratedQuestions st topic [] = st) ∧
    (∀ (st : QuizState) (topic : Str) (qs : List QuestionData),
      applyGeneratedQuestions st topic qs ≠ st → 0 < qs.length) := by
  refine ⟨?_, ?_, ?_⟩
  · intro resp last now hcall hparse
    simp [generateQuizQuestions, hcall, hparse]
  · intro st topic
    simp [applyGeneratedQuestions]
  · intro st topic qs h
    by_contra hlen
    push_neg at hlen
    have hnil : qs = [] := List.length_eq_zero.mp (Nat.le_zero.mp hlen)
    subst hnil
    exact h (by simp [applyGeneratedQuestions])

theorem zero_valid_questions_hard_failure_witness :
    generateQuizQuestions true exGarbage none 0 =
      ⟨[], some 0, true, GenNotice.noValid⟩ :=
  zero_valid_questions_hard_failure.1 exGarbage none 0 (by decide) (by decide)

theorem mainNavStep_lt {n idx : Nat} (h : idx < n) (a : NavAction) :
    mainNavStep n idx a < n := by
  cases a <;> simp only [mainNavStep] <;> split <;> omega

theorem ifaceNavStep_lt {n idx : Nat} (h : idx < n) (a : NavAction) :
    ifaceNavStep n idx a < n := by
  cases a <;> simp only [ifaceNavStep] <;> split <;> omega

/-- C9: in both quiz interfaces, `previous` at index 0 and `next` at the
last index leave the index unchanged, and no sequence of
`previous`/`next` steps can move the current index outside
`0 ≤ current_index < len(questions)` (the lower bound is inherent to the
`Nat` index). -/
theorem navigation_preserves_bounds :
    (∀ (n : Nat) (acts : List NavAction) (idx : Nat), idx < n →
      List.foldl (mainNavStep n) idx acts < n) ∧
    (∀ (n : Nat) (acts : List NavAction) (idx : Nat), idx < n →
      List.foldl (ifaceNavStep n) idx acts < n) ∧
    (∀ n : Nat, mainNavStep n 0 NavAction.prev = 0) ∧
    (∀ n : Nat, ifaceNavStep n 0 NavAction.prev = 0) ∧
    (∀ n : Nat, 0 < n → mainNavStep n (n - 1) NavAction.next = n - 1) ∧
    (∀ n : Nat, 0 < n → ifaceNavStep n (n - 1) NavAction.next = n - 1) := by
  refine ⟨?_, ?_, ?_, ?_, ?_, ?_⟩
  · intro n acts
    induction acts with
    | nil => intro idx h; exact h
    | cons a tl ih => intro idx h; exact ih _ (mainNavStep_lt h a)
  · intro n acts
    induction acts with
    | nil => intro idx h; exact h
    | cons a tl ih => intro idx h; exact ih _ (ifaceNavStep_lt h a)
  · intro n; simp [mainNavStep]
  · intro n; simp [ifaceNavStep]
  · intro n _; simp [mainNavStep]
  · intro n _; simp [ifaceNavStep]

theorem navigation_preserves_bounds_witness :
    List.foldl (mainNavStep 3) 0
      [NavAction.next, NavAction.next, NavAction.next, NavAction.prev] < 3 :=
  navigation_preserves_bounds.1 3
    [NavAction.next, NavAction.next, NavAction.next, NavAction.prev] 0 (by decide)
